import Mathlib

/-!
Verification of the core of `github-release-monitor` (Go): the
poll-detect-notify-persist cycle.  Each Go function of the core is embedded
as a pure Lean definition; side effects (mutation of a repository entry,
invocation of the notification dispatcher, per-channel sends) are modelled
as an explicit trace of operations, and the GitHub client is modelled as a
function argument (a fetch oracle) returning either a tag or an error.
-/

set_option maxRecDepth 100000

namespace ReleaseMonitor

/-- A repository entry, mirroring the Go struct `Repository`
(fields `Slug` and `CurrentReleaseTag`). -/
structure Repository where
  slug : String
  currentReleaseTag : String
deriving DecidableEq, Repr

/-- A notification channel, mirroring the Go struct `Notification`
(field `RawURL`). -/
structure Notification where
  rawURL : String
deriving DecidableEq, Repr

/-- Embedding of Go `strings.SplitN(s, "/", 2)` on the character list of the
string: at most one split, at the first occurrence of the separator. -/
def splitN2Chars : List Char → List (List Char)
  | [] => [[]]
  | c :: rest =>
    if c = '/' then [[], rest]
    else
      match splitN2Chars rest with
      | [] => [[c]]
      | x :: xs => (c :: x) :: xs

/-- Go `strings.SplitN(s, "/", 2)`, lifted back to `String`. -/
def splitN2 (s : String) : List String :=
  (splitN2Chars s.data).map String.mk

/-- Embedding of Go `parseSlug`: succeeds exactly when `SplitN` produced two
parts, otherwise fails with the `"invalid slug format: ..."` error. -/
def parseSlug (slug : String) : Except String (String × String) :=
  match splitN2 slug with
  | [owner, repo] => Except.ok (owner, repo)
  | _ => Except.error ("invalid slug format: " ++ slug)

theorem splitN2Chars_no_slash (s : List Char) (h : '/' ∉ s) :
    splitN2Chars s = [s] := by
  induction s with
  | nil => rfl
  | cons c rest ih =>
    have hc : c ≠ '/' := fun hc => h (by simp [hc])
    have hr : '/' ∉ rest := fun hm => h (List.mem_cons_of_mem _ hm)
    simp [splitN2Chars, hc, ih hr]

theorem splitN2Chars_slash (o r : List Char) (h : '/' ∉ o) :
    splitN2Chars (o ++ '/' :: r) = [o, r] := by
  induction o with
  | nil => simp [splitN2Chars]
  | cons c o' ih =>
    have hc : c ≠ '/' := fun hc => h (by simp [hc])
    have ho : '/' ∉ o' := fun hm => h (List.mem_cons_of_mem _ hm)
    simp [splitN2Chars, hc, ih ho]

theorem parseSlug_mk_slash (o r : List Char) (h : '/' ∉ o) :
    parseSlug (String.mk (o ++ '/' :: r)) =
      Except.ok (String.mk o, String.mk r) := by
  simp [parseSlug, splitN2, splitN2Chars_slash o r h]

theorem parseSlug_mk_no_slash (s : List Char) (h : '/' ∉ s) :
    parseSlug (String.mk s) =
      Except.error ("invalid slug format: " ++ String.mk s) := by
  simp [parseSlug, splitN2, splitN2Chars_no_slash s h]

/-- One observable side effect of a repository check.  `setTag` is the
in-place mutation `repo.CurrentReleaseTag = tagName`; `dispatch` marks the
invocation of the Notification Dispatcher (`notifyNewRelease`) with its
arguments; `send` is one per-channel `shoutrrr.Send` call with the
destination URL and the formatted message body. -/
inductive Op where
  | setTag : String → Op
  | dispatch : String → String → Op
  | send : String → String → Op
deriving DecidableEq, Repr

/-- The default plain-text message built in Go `notifyNewRelease`
(`fmt.Sprintf("New release for %s: %s", slug, tagName)`). -/
def defaultMessage (slug tagName : String) : String :=
  "New release for " ++ slug ++ ": " ++ tagName

/-- Embedding of Go `formatTeamsPowerAutomateMessage`: the adaptive-card
JSON template with `slug` and `tagName` interpolated at the two `%s`
verbs (braces of the JSON written as hex escapes). -/
def formatTeamsPowerAutomateMessage (slug tagName : String) : String :=
  "\x7b\n\t\t\"type\": \"message\",\n\t\t\"attachments\": [\x7b\n\t\t\t\"contentType\": \"application/vnd.microsoft.card.adaptive\",\n\t\t\t\"content\": \x7b\n\t\t\t\t\"type\": \"AdaptiveCard\",\n\t\t\t\t\"version\": \"1.2\",\n\t\t\t\t\"body\": [\x7b\n\t\t\t\t\t\"type\": \"TextBlock\",\n\t\t\t\t\t\"text\": \"New Release Available\",\n\t\t\t\t\t\"weight\": \"bolder\",\n\t\t\t\t\t\"size\": \"large\"\n\t\t\t\t\x7d,\x7b\n\t\t\t\t\t\"type\": \"FactSet\",\n\t\t\t\t\t\"facts\": [\x7b\n\t\t\t\t\t\t\"title\": \"Repository:\",\n\t\t\t\t\t\t\"value\": \"" ++ slug ++ "\"\n\t\t\t\t\t\x7d,\x7b\n\t\t\t\t\t\t\"title\": \"Version:\",\n\t\t\t\t\t\t\"value\": \"" ++ tagName ++ "\"\n\t\t\t\t\t\x7d]\n\t\t\t\t\x7d]\n\t\t\t\x7d\n\t\t\x7d]\n\t\x7d"

/-- Embedding of Go `strings.HasPrefix(url, "generic+powerautomate")`:
the marker's characters are a prefix of the descriptor's characters. -/
def hasAutomateMarker (url : String) : Bool :=
  List.isPrefixOf "generic+powerautomate".data url.data

/-- Embedding of Go `formatNotificationMessage`: destination descriptors
starting with the reserved marker get the structured card, every other
descriptor gets the caller-supplied default message unchanged. -/
def formatNotificationMessage (url slug tagName defaultMsg : String) : String :=
  if hasAutomateMarker url then
    formatTeamsPowerAutomateMessage slug tagName
  else defaultMsg

/-- Embedding of Go `notifyNewRelease` as a trace: one `dispatch` marker
for the invocation itself, then one `send` per configured channel, with
the message formatted per channel by `formatNotificationMessage`
(the default message being the plain-text one computed at entry). -/
def notifyNewRelease (slug tagName : String)
    (notifications : List Notification) : List Op :=
  Op.dispatch slug tagName ::
    notifications.map (fun n =>
      Op.send n.rawURL
        (formatNotificationMessage n.rawURL slug tagName
          (defaultMessage slug tagName)))

/-- Embedding of Go `updateReleaseTag` as a trace: when the stored tag
differs from the fetched one, first the in-place mutation, then the
dispatcher invocation; otherwise nothing happens. -/
def updateReleaseTag (repo : Repository) (tagName : String)
    (notifications : List Notification) : List Op :=
  if repo.currentReleaseTag ≠ tagName then
    Op.setTag tagName :: notifyNewRelease repo.slug tagName notifications
  else []

/-- Effect of one trace operation on the repository entry: only `setTag`
mutates it. -/
def applyOp (repo : Repository) : Op → Repository
  | Op.setTag t => { repo with currentReleaseTag := t }
  | Op.dispatch _ _ => repo
  | Op.send _ _ => repo

/-- Effect of a whole trace on the repository entry, in order. -/
def applyOps (repo : Repository) (ops : List Op) : Repository :=
  ops.foldl applyOp repo

/-- A fetch oracle, modelling `client.Repositories.GetLatestRelease`
composed with `release.GetTagName()`: from owner and repository name to
either a tag or an error. -/
def FetchOracle : Type := String → String → Except String String

/-- Embedding of Go `getLatestReleaseTag`: on fetch error the error is
returned as is, otherwise the tag name. -/
def getLatestReleaseTag (fetch : FetchOracle) (owner repo : String) :
    Except String String :=
  fetch owner repo

/-- Embedding of Go `checkRepository`: parse the slug (propagating the
parse error unchanged), fetch the latest tag (wrapping a fetch error with
the slug), and on success run `updateReleaseTag`, returning the trace of
side effects. -/
def checkRepository (repo : Repository) (fetch : FetchOracle)
    (notifications : List Notification) : Except String (List Op) :=
  match parseSlug repo.slug with
  | Except.error e => Except.error e
  | Except.ok (owner, repoName) =>
    match getLatestReleaseTag fetch owner repoName with
    | Except.error e =>
      Except.error ("error fetching release for " ++ repo.slug ++ ": " ++ e)
    | Except.ok tagName =>
      Except.ok (updateReleaseTag repo tagName notifications)

/-- One complete check of a single entry: the resulting entry state and
the emitted trace (a failed check leaves the entry untouched and emits
nothing). -/
def runCheckOnce (repo : Repository) (fetch : FetchOracle)
    (notifications : List Notification) : Repository × List Op :=
  match checkRepository repo fetch notifications with
  | Except.error _ => (repo, [])
  | Except.ok ops => (applyOps repo ops, ops)

/-- The dispatcher invocations recorded in a trace, as (slug, tag) pairs. -/
def dispatchedEvents (ops : List Op) : List (String × String) :=
  ops.filterMap (fun op =>
    match op with
    | Op.dispatch s t => some (s, t)
    | _ => none)

/-- The per-channel sends recorded in a trace, as (url, message) pairs. -/
def sentMessages (ops : List Op) : List (String × String) :=
  ops.filterMap (fun op =>
    match op with
    | Op.send u m => some (u, m)
    | _ => none)

/-- A constant fetch oracle that always succeeds with the given tag. -/
def fetchConst (t : String) : FetchOracle := fun _ _ => Except.ok t

/-- A constant fetch oracle that always fails with the given error. -/
def fetchFail (e : String) : FetchOracle := fun _ _ => Except.error e

/-- One orchestrator step for one entry, matching the goroutine body in Go
`checkRepositories`: run `checkRepository`; on error, leave the entry as it
was and produce the logged error line
(`"Error checking repository %s: %v"`), on success apply the trace. -/
def checkRepoEntry (fetch : FetchOracle) (notifications : List Notification)
    (repo : Repository) : Repository × Option String :=
  match checkRepository repo fetch notifications with
  | Except.error e =>
    (repo, some ("Error checking repository " ++ repo.slug ++ ": " ++ e))
  | Except.ok ops => (applyOps repo ops, none)

/-- Outcome of one orchestrator cycle: the updated entries, the error lines
written to the operator-visible error channel, and the value returned to
the caller. -/
structure CycleResult where
  repos : List Repository
  errlog : List String
  result : Except String Unit
deriving Repr

/-- Embedding of Go `checkRepositories`: every entry is checked (the Go
code fans the checks out concurrently, but each goroutine writes only its
own entry, so the cycle is modelled entry by entry), each failure is
appended to the error log, and the function returns `nil` (`ok`)
unconditionally. -/
def checkRepositories (fetch : FetchOracle)
    (notifications : List Notification) :
    List Repository → CycleResult
  | [] => ⟨[], [], Except.ok ()⟩
  | repo :: rest =>
    let head := checkRepoEntry fetch notifications repo
    let tail := checkRepositories fetch notifications rest
    ⟨head.1 :: tail.repos,
     (match head.2 with
      | some e => e :: tail.errlog
      | none => tail.errlog),
     tail.result⟩

/-- A value of the persisted YAML document, as far as the configuration
schema needs it: scalars (null, string, integer), sequences and mappings. -/
inductive YamlValue where
  | null : YamlValue
  | str : String → YamlValue
  | int : Int → YamlValue
  | seq : List YamlValue → YamlValue
  | map : List (String × YamlValue) → YamlValue
deriving Repr

/-- The in-memory configuration, mirroring the Go struct `Config`
(fields `AccessToken`, `Interval`, `Repositories`, `Notifications`). -/
structure Config where
  accessToken : String
  interval : Int
  repositories : List Repository
  notifications : List Notification
deriving DecidableEq, Repr

/-- First binding of a key in a YAML mapping. -/
def lookupKey (m : List (String × YamlValue)) (k : String) : Option YamlValue :=
  (m.find? (fun p => p.1 == k)).map (fun p => p.2)

/-- Decoding a string-typed field as `yaml.Unmarshal` does for a Go
`string` field: a missing key or an explicit null yields the zero value
`""`; a non-string scalar or a collection is a type error. -/
def decodeString : Option YamlValue → Except String String
  | none => Except.ok ""
  | some YamlValue.null => Except.ok ""
  | some (YamlValue.str s) => Except.ok s
  | some _ => Except.error "cannot unmarshal into a string field"

/-- Decoding an integer-typed field as `yaml.Unmarshal` does for a Go
`int` field: missing or null yields `0`; anything but an integer scalar is
a type error. -/
def decodeInt : Option YamlValue → Except String Int
  | none => Except.ok 0
  | some YamlValue.null => Except.ok 0
  | some (YamlValue.int n) => Except.ok n
  | some _ => Except.error "cannot unmarshal into an int field"

/-- Decoding one `repositories` element into the Go struct `Repository`
via its `slug` and `current_release_tag` tags. -/
def decodeRepository : YamlValue → Except String Repository
  | YamlValue.null => Except.ok ⟨"", ""⟩
  | YamlValue.map m =>
    match decodeString (lookupKey m "slug") with
    | Except.error e => Except.error e
    | Except.ok slug =>
      match decodeString (lookupKey m "current_release_tag") with
      | Except.error e => Except.error e
      | Except.ok tag => Except.ok ⟨slug, tag⟩
  | _ => Except.error "cannot unmarshal into a Repository"

/-- Decoding one `notifications` element into the Go struct `Notification`
via its `url` tag. -/
def decodeNotification : YamlValue → Except String Notification
  | YamlValue.null => Except.ok ⟨""⟩
  | YamlValue.map m =>
    match decodeString (lookupKey m "url") with
    | Except.error e => Except.error e
    | Except.ok u => Except.ok ⟨u⟩
  | _ => Except.error "cannot unmarshal into a Notification"

/-- Decoding the elements of a YAML sequence in order, failing on the
first element that does not decode. -/
def decodeSeq (dec : YamlValue → Except String α) :
    List YamlValue → Except String (List α)
  | [] => Except.ok []
  | v :: rest =>
    match dec v with
    | Except.error e => Except.error e
    | Except.ok a =>
      match decodeSeq dec rest with
      | Except.error e => Except.error e
      | Except.ok as_ => Except.ok (a :: as_)

/-- Decoding a list-typed field: missing or null yields the empty list
(Go nil slice); a sequence decodes element-wise; anything else is a type
error. -/
def decodeList (dec : YamlValue → Except String α) :
    Option YamlValue → Except String (List α)
  | none => Except.ok []
  | some YamlValue.null => Except.ok []
  | some (YamlValue.seq l) => decodeSeq dec l
  | some _ => Except.error "cannot unmarshal into a list field"

/-- Model of `yaml.Unmarshal(data, &config)` for the `Config` schema:
known keys are decoded by tag, unknown keys are ignored, missing keys get
zero values. -/
def unmarshalConfig : YamlValue → Except String Config
  | YamlValue.null => Except.ok ⟨"", 0, [], []⟩
  | YamlValue.map m =>
    match decodeString (lookupKey m "access_token") with
    | Except.error e => Except.error e
    | Except.ok tok =>
      match decodeInt (lookupKey m "interval") with
      | Except.error e => Except.error e
      | Except.ok itv =>
        match decodeList decodeRepository (lookupKey m "repositories") with
        | Except.error e => Except.error e
        | Except.ok repos =>
          match decodeList decodeNotification (lookupKey m "notifications") with
          | Except.error e => Except.error e
          | Except.ok nots => Except.ok ⟨tok, itv, repos, nots⟩
  | _ => Except.error "cannot unmarshal into a Config"

/-- Model of `yaml.Marshal` on one `Repository` (tags `slug` and
`current_release_tag`, no omitempty). -/
def marshalRepository (r : Repository) : YamlValue :=
  YamlValue.map
    [("slug", YamlValue.str r.slug),
     ("current_release_tag", YamlValue.str r.currentReleaseTag)]

/-- Model of `yaml.Marshal` on one `Notification` (tag `url`). -/
def marshalNotification (n : Notification) : YamlValue :=
  YamlValue.map [("url", YamlValue.str n.rawURL)]

/-- Model of `yaml.Marshal` on a `Config`: the `access_token` key is
dropped when empty (its tag carries `omitempty`), the other known keys are
always emitted, list order preserved. -/
def marshalConfig (c : Config) : YamlValue :=
  YamlValue.map
    ((if c.accessToken = "" then []
      else [("access_token", YamlValue.str c.accessToken)]) ++
     [("interval", YamlValue.int c.interval),
      ("repositories", YamlValue.seq (c.repositories.map marshalRepository)),
      ("notifications",
        YamlValue.seq (c.notifications.map marshalNotification))])

/-- Embedding of Go `loadConfig`: a read error propagates as is, otherwise
the document is unmarshalled.  The file read is modelled by its result. -/
def loadConfig (readResult : Except String YamlValue) : Except String Config :=
  match readResult with
  | Except.error e => Except.error e
  | Except.ok doc => unmarshalConfig doc

/-- Embedding of Go `saveConfig` up to the file write: the document that
gets serialized to disk. -/
def saveConfig (c : Config) : YamlValue :=
  marshalConfig c

theorem applyOps_notifyNewRelease (repo : Repository) (s t : String)
    (ns : List Notification) :
    applyOps repo (notifyNewRelease s t ns) = repo := by
  show applyOps repo (Op.dispatch s t :: ns.map _) = repo
  induction ns with
  | nil => rfl
  | cons n rest ih =>
    simpa [applyOps, List.foldl, applyOp] using ih

theorem applyOps_updateReleaseTag (repo : Repository) (t : String)
    (ns : List Notification) :
    applyOps repo (updateReleaseTag repo t ns) = ⟨repo.slug, t⟩ := by
  by_cases h : repo.currentReleaseTag = t
  · have hnil : updateReleaseTag repo t ns = [] := by
      simp [updateReleaseTag, h]
    rw [hnil]
    cases repo with
    | mk slug tag => simpa [applyOps] using h
  · simp only [updateReleaseTag, if_pos h]
    show applyOps (applyOp repo (Op.setTag t)) _ = _
    rw [show applyOp repo (Op.setTag t) = ⟨repo.slug, t⟩ from rfl]
    exact applyOps_notifyNewRelease _ _ _ _

theorem dispatchedEvents_notifyNewRelease (s t : String)
    (ns : List Notification) :
    dispatchedEvents (notifyNewRelease s t ns) = [(s, t)] := by
  simp [dispatchedEvents, notifyNewRelease, List.filterMap_cons,
    List.filterMap_map]

theorem sentMessages_notifyNewRelease (s t : String)
    (ns : List Notification) :
    sentMessages (notifyNewRelease s t ns) =
      ns.map (fun n =>
        (n.rawURL,
         formatNotificationMessage n.rawURL s t (defaultMessage s t))) := by
  simp only [sentMessages, notifyNewRelease, List.filterMap_cons]
  induction ns with
  | nil => rfl
  | cons n rest ih => simpa [List.filterMap_cons] using ih

theorem checkRepository_ok (repo : Repository) (fetch : FetchOracle)
    (ns : List Notification) (t o r : String)
    (hp : parseSlug repo.slug = Except.ok (o, r))
    (hf : fetch o r = Except.ok t) :
    checkRepository repo fetch ns =
      Except.ok (updateReleaseTag repo t ns) := by
  simp [checkRepository, getLatestReleaseTag, hp, hf]

theorem runCheckOnce_ok (repo : Repository) (fetch : FetchOracle)
    (ns : List Notification) (t o r : String)
    (hp : parseSlug repo.slug = Except.ok (o, r))
    (hf : fetch o r = Except.ok t) :
    runCheckOnce repo fetch ns =
      (⟨repo.slug, t⟩, updateReleaseTag repo t ns) := by
  simp [runCheckOnce, checkRepository_ok repo fetch ns t o r hp hf,
    applyOps_updateReleaseTag]

/-- C1 (counterexample to the claim as stated): with an entry whose stored
tag is empty and a fetch that succeeds with the empty tag, the check
succeeds with an empty trace — the dispatcher is never invoked, not
invoked exactly once. -/
theorem first_observation_empty_tag_no_dispatch :
    checkRepository ⟨"octo/hello", ""⟩ (fetchConst "") [⟨"slack://x"⟩] =
      Except.ok [] ∧
    dispatchedEvents [] = [] :=
  ⟨rfl, rfl⟩

/-- C1 (amended: the fetched tag must be non-empty): an entry with empty
`lastSeenTag` whose check fetches a non-empty tag `t` produces exactly one
dispatcher invocation, and the dispatched tag is `t`. -/
theorem first_observation_single_dispatch (repo : Repository)
    (fetch : FetchOracle) (ns : List Notification) (t o r : String)
    (h0 : repo.currentReleaseTag = "") (ht : t ≠ "")
    (hp : parseSlug repo.slug = Except.ok (o, r))
    (hf : fetch o r = Except.ok t) :
    checkRepository repo fetch ns =
      Except.ok (updateReleaseTag repo t ns) ∧
    dispatchedEvents (updateReleaseTag repo t ns) = [(repo.slug, t)] := by
  refine ⟨checkRepository_ok repo fetch ns t o r hp hf, ?_⟩
  have hne : repo.currentReleaseTag ≠ t := by
    rw [h0]; exact fun he => ht he.symm
  simp [updateReleaseTag, if_pos hne, dispatchedEvents,
    dispatchedEvents_notifyNewRelease repo.slug t ns]
  simpa [dispatchedEvents] using
    dispatchedEvents_notifyNewRelease repo.slug t ns

/-- Witness for the amended C1 at a concrete entry, oracle and channel
list. -/
theorem first_observation_single_dispatch_witness :
    checkRepository ⟨"octo/hello", ""⟩ (fetchConst "v1.0.0") [⟨"slack://x"⟩] =
      Except.ok
        (updateReleaseTag ⟨"octo/hello", ""⟩ "v1.0.0" [⟨"slack://x"⟩]) ∧
    dispatchedEvents
        (updateReleaseTag ⟨"octo/hello", ""⟩ "v1.0.0" [⟨"slack://x"⟩]) =
      [("octo/hello", "v1.0.0")] :=
  first_observation_single_dispatch ⟨"octo/hello", ""⟩ (fetchConst "v1.0.0")
    [⟨"slack://x"⟩] "v1.0.0" "octo" "hello" rfl (by decide) rfl rfl

/-- C2: with a fixed fetched tag `t`, the first run dispatches exactly when
the stored tag differs from `t`, the first run leaves the stored tag equal
to `t`, and the second run emits nothing and changes nothing. -/
theorem change_detection_idempotent (repo : Repository)
    (fetch : FetchOracle) (ns : List Notification) (t o r : String)
    (hp : parseSlug repo.slug = Except.ok (o, r))
    (hf : fetch o r = Except.ok t) :
    (dispatchedEvents (runCheckOnce repo fetch ns).2 ≠ [] ↔
       repo.currentReleaseTag ≠ t) ∧
    (runCheckOnce repo fetch ns).1.currentReleaseTag = t ∧
    (runCheckOnce (runCheckOnce repo fetch ns).1 fetch ns).2 = [] ∧
    (runCheckOnce (runCheckOnce repo fetch ns).1 fetch ns).1 =
      (runCheckOnce repo fetch ns).1 := by
  have h1 := runCheckOnce_ok repo fetch ns t o r hp hf
  have hp1 : parseSlug (Repository.mk repo.slug t).slug = Except.ok (o, r) := hp
  have h2 := runCheckOnce_ok ⟨repo.slug, t⟩ fetch ns t o r hp1 hf
  have hupd2 : updateReleaseTag ⟨repo.slug, t⟩ t ns = [] := by
    simp [updateReleaseTag]
  rw [h1]
  refine ⟨?_, rfl, ?_, ?_⟩
  · by_cases h : repo.currentReleaseTag = t
    · simp [updateReleaseTag, h, dispatchedEvents]
    · simp [updateReleaseTag, if_pos h,
        show dispatchedEvents (Op.setTag t :: notifyNewRelease repo.slug t ns) =
          [(repo.slug, t)] by
            simpa [dispatchedEvents] using
              dispatchedEvents_notifyNewRelease repo.slug t ns, h]
  · rw [h2, hupd2]
  · rw [h2, hupd2]

/-- Witness for C2 at a concrete entry whose stored tag differs from the
fetched one. -/
theorem change_detection_idempotent_witness :
    (dispatchedEvents
        (runCheckOnce ⟨"octo/hello", "v1"⟩ (fetchConst "v2") []).2 ≠ [] ↔
       (Repository.mk "octo/hello" "v1").currentReleaseTag ≠ "v2") ∧
    (runCheckOnce ⟨"octo/hello", "v1"⟩
        (fetchConst "v2") []).1.currentReleaseTag = "v2" ∧
    (runCheckOnce (runCheckOnce ⟨"octo/hello", "v1"⟩ (fetchConst "v2") []).1
        (fetchConst "v2") []).2 = [] ∧
    (runCheckOnce (runCheckOnce ⟨"octo/hello", "v1"⟩ (fetchConst "v2") []).1
        (fetchConst "v2") []).1 =
      (runCheckOnce ⟨"octo/hello", "v1"⟩ (fetchConst "v2") []).1 :=
  change_detection_idempotent ⟨"octo/hello", "v1"⟩ (fetchConst "v2") []
    "v2" "octo" "hello" rfl rfl

/-- C5: a check failing at the slug-parsing step returns the parse error
unchanged, a check failing at the fetch step returns the fetch error
wrapped with the repository slug; in both cases the entry is untouched and
the trace is empty (no dispatch, no send). -/
theorem failed_check_leaves_state (repo : Repository) (fetch : FetchOracle)
    (ns : List Notification) :
    (∀ e, parseSlug repo.slug = Except.error e →
       checkRepository repo fetch ns = Except.error e ∧
       runCheckOnce repo fetch ns = (repo, [])) ∧
    (∀ o r e, parseSlug repo.slug = Except.ok (o, r) →
       fetch o r = Except.error e →
       checkRepository repo fetch ns =
         Except.error
           ("error fetching release for " ++ repo.slug ++ ": " ++ e) ∧
       runCheckOnce repo fetch ns = (repo, [])) := by
  constructor
  · intro e he
    have h : checkRepository repo fetch ns = Except.error e := by
      simp [checkRepository, he]
    exact ⟨h, by simp [runCheckOnce, h]⟩
  · intro o r e hp hf
    have h : checkRepository repo fetch ns =
        Except.error
          ("error fetching release for " ++ repo.slug ++ ": " ++ e) := by
      simp [checkRepository, getLatestReleaseTag, hp, hf]
    exact ⟨h, by simp [runCheckOnce, h]⟩

/-- Witness for C5 at a concrete entry whose fetch fails. -/
theorem failed_check_leaves_state_witness :
    checkRepository ⟨"a/b", "v1"⟩ (fetchFail "boom") [⟨"slack://x"⟩] =
      Except.error ("error fetching release for " ++ "a/b" ++ ": " ++ "boom") ∧
    runCheckOnce ⟨"a/b", "v1"⟩ (fetchFail "boom") [⟨"slack://x"⟩] =
      (⟨"a/b", "v1"⟩, []) :=
  (failed_check_leaves_state ⟨"a/b", "v1"⟩ (fetchFail "boom")
    [⟨"slack://x"⟩]).2 "a" "b" "boom" rfl rfl

/-- C6: in every successful check trace, at the point of the dispatcher
invocation the entry (as mutated by the trace prefix already executed)
already stores the dispatched tag, and the dispatched slug is the entry's
slug. -/
theorem mutation_precedes_dispatch (repo : Repository) (fetch : FetchOracle)
    (ns : List Notification) (ops pre post : List Op) (s tg : String)
    (hok : checkRepository repo fetch ns = Except.ok ops)
    (hsplit : ops = pre ++ Op.dispatch s tg :: post) :
    (applyOps repo pre).currentReleaseTag = tg ∧ s = repo.slug := by
  cases hps : parseSlug repo.slug with
  | error e => simp [checkRepository, hps] at hok
  | ok pr =>
    obtain ⟨o, r⟩ := pr
    cases hfr : fetch o r with
    | error e => simp [checkRepository, getLatestReleaseTag, hps, hfr] at hok
    | ok t =>
      have hops : ops = updateReleaseTag repo t ns := by
        have hc := checkRepository_ok repo fetch ns t o r hps hfr
        rw [hc] at hok
        exact (Except.ok.inj hok).symm
      rw [hops] at hsplit
      by_cases h : repo.currentReleaseTag = t
      · simp [updateReleaseTag, h] at hsplit
      · have hsplit' :
            Op.setTag t :: Op.dispatch repo.slug t ::
                ns.map (fun n =>
                  Op.send n.rawURL
                    (formatNotificationMessage n.rawURL repo.slug t
                      (defaultMessage repo.slug t))) =
              pre ++ Op.dispatch s tg :: post := by
          simpa [updateReleaseTag, if_pos h, notifyNewRelease] using hsplit
        cases pre with
        | nil => simp at hsplit'
        | cons a pre' =>
          rw [List.cons_append] at hsplit'
          obtain ⟨ha, hrest⟩ := List.cons.inj hsplit'
          cases pre' with
          | nil =>
            obtain ⟨hd, _⟩ := List.cons.inj hrest
            obtain ⟨hs, htg⟩ := Op.dispatch.inj hd
            subst ha
            exact ⟨htg.symm ▸ rfl, hs.symm⟩
          | cons b pre'' =>
            rw [List.cons_append] at hrest
            obtain ⟨hb, hL⟩ := List.cons.inj hrest
            have hmem : Op.dispatch s tg ∈
                ns.map (fun n =>
                  Op.send n.rawURL
                    (formatNotificationMessage n.rawURL repo.slug t
                      (defaultMessage repo.slug t))) := by
              rw [hL]
              exact List.mem_append_right _ (List.mem_cons_self _ _)
            simp [List.mem_map] at hmem

/-- Witness for C6 at a concrete successful check with one channel. -/
theorem mutation_precedes_dispatch_witness :
    (applyOps ⟨"a/b", "v1"⟩ [Op.setTag "v2"]).currentReleaseTag = "v2" ∧
    "a/b" = (Repository.mk "a/b" "v1").slug :=
  mutation_precedes_dispatch ⟨"a/b", "v1"⟩ (fetchConst "v2") [⟨"slack://x"⟩]
    (updateReleaseTag ⟨"a/b", "v1"⟩ "v2" [⟨"slack://x"⟩])
    [Op.setTag "v2"]
    [Op.send "slack://x" (defaultMessage "a/b" "v2")] "a/b" "v2" rfl
    (by decide)

theorem exists_first_slash (s : List Char) (h : '/' ∈ s) :
    ∃ o r, s = o ++ '/' :: r ∧ '/' ∉ o := by
  induction s with
  | nil => cases h
  | cons c rest ih =>
    by_cases hc : c = '/'
    · exact ⟨[], rest, by rw [hc]; rfl, by simp⟩
    · have hr : '/' ∈ rest := by
        cases List.mem_cons.mp h with
        | inl he => exact absurd he.symm hc
        | inr hm => exact hm
      obtain ⟨o, r, heq, ho⟩ := ih hr
      refine ⟨c :: o, r, by rw [heq]; rfl, ?_⟩
      intro hm
      cases List.mem_cons.mp hm with
      | inl he => exact hc he.symm
      | inr hm' => exact ho hm'

/-- C3: a slug made of a slash-free owner part, one `/`, and a remainder
parses into exactly those two parts — both when the remainder is slash-free
and non-empty (exactly one `/` in the slug) and when the remainder holds
further slashes (the name part keeps them, the split being on the first
`/` only). -/
theorem parseSlug_success_cases :
    (∀ o r : List Char, o ≠ [] → r ≠ [] → '/' ∉ o → '/' ∉ r →
       parseSlug (String.mk (o ++ '/' :: r)) =
         Except.ok (String.mk o, String.mk r)) ∧
    (∀ o r : List Char, '/' ∉ o → '/' ∈ r →
       parseSlug (String.mk (o ++ '/' :: r)) =
         Except.ok (String.mk o, String.mk r)) :=
  ⟨fun o r _ _ ho _ => parseSlug_mk_slash o r ho,
   fun o r ho _ => parseSlug_mk_slash o r ho⟩

/-- Witness for C3 at `"octocat/Hello-World"` (exactly one slash) and
`"a/b/c"` (split on the first slash only). -/
theorem parseSlug_success_cases_witness :
    parseSlug (String.mk ("octocat".data ++ '/' :: "Hello-World".data)) =
      Except.ok (String.mk "octocat".data, String.mk "Hello-World".data) ∧
    parseSlug (String.mk ("a".data ++ '/' :: "b/c".data)) =
      Except.ok (String.mk "a".data, String.mk "b/c".data) :=
  ⟨parseSlug_success_cases.1 "octocat".data "Hello-World".data
      (by decide) (by decide) (by decide) (by decide),
   parseSlug_success_cases.2 "a".data "b/c".data (by decide) (by decide)⟩

/-- C4 (counterexample to the claim as stated): `parseSlug` accepts
`"/name"`, returning an empty owner part, instead of failing; and the
failure message of `parseSlug` reads `"invalid slug format: ..."`, not
`"invalid identifier format: ..."`. -/
theorem parseSlug_empty_part_counterexample :
    parseSlug "/name" = Except.ok ("", "name") ∧
    parseSlug "noslash" =
      Except.error ("invalid slug format: noslash") ∧
    parseSlug "noslash" ≠
      Except.error ("invalid identifier format: noslash") := by
  refine ⟨rfl, rfl, fun h => ?_⟩
  have h' := Except.error.inj
    ((rfl :
      parseSlug "noslash" =
        Except.error ("invalid slug format: noslash")).symm.trans h)
  exact absurd h' (by decide)

/-- C4 (amended): `parseSlug` fails exactly on slug strings containing no
`/` at all, with message `"invalid slug format: "` followed by the slug;
every string containing a `/` is accepted, splitting at its first `/`,
even when a part is empty. -/
theorem parseSlug_failure_cases (s : List Char) :
    ('/' ∉ s →
       parseSlug (String.mk s) =
         Except.error ("invalid slug format: " ++ String.mk s)) ∧
    ('/' ∈ s → ∃ o r, parseSlug (String.mk s) = Except.ok (o, r)) := by
  refine ⟨parseSlug_mk_no_slash s, fun hm => ?_⟩
  obtain ⟨o, r, heq, ho⟩ := exists_first_slash s hm
  exact ⟨String.mk o, String.mk r, heq ▸ parseSlug_mk_slash o r ho⟩

/-- Witness for the amended C4 at `"noslash"` (failure) and `"a/b"`
(success). -/
theorem parseSlug_failure_cases_witness :
    parseSlug (String.mk "noslash".data) =
      Except.error ("invalid slug format: " ++ String.mk "noslash".data) ∧
    (∃ o r, parseSlug (String.mk "a/b".data) = Except.ok (o, r)) :=
  ⟨(parseSlug_failure_cases "noslash".data).1 (by decide),
   (parseSlug_failure_cases "a/b".data).2 (by decide)⟩

/-- One fact entry of the adaptive card, rendered exactly as the template
renders it (title line, value line, closing brace at the template's
indentation). -/
def renderFact (fact : String × String) : String :=
  "\x7b\n\t\t\t\t\t\t\"title\": \"" ++ fact.1 ++
    "\",\n\t\t\t\t\t\t\"value\": \"" ++ fact.2 ++ "\"\n\t\t\t\t\t\x7d"

/-- The fact entries joined with commas, as they appear inside the
template's fact array. -/
def renderFactBody : List (String × String) → String
  | [] => ""
  | [f] => renderFact f
  | f :: rest => renderFact f ++ "," ++ renderFactBody rest

/-- The adaptive-card payload as a function of its title and fact list:
the fixed template around a `TextBlock` holding the title and a `FactSet`
holding the facts. -/
def adaptiveCardPayload (title : String) (facts : List (String × String)) :
    String :=
  "\x7b\n\t\t\"type\": \"message\",\n\t\t\"attachments\": [\x7b\n\t\t\t\"contentType\": \"application/vnd.microsoft.card.adaptive\",\n\t\t\t\"content\": \x7b\n\t\t\t\t\"type\": \"AdaptiveCard\",\n\t\t\t\t\"version\": \"1.2\",\n\t\t\t\t\"body\": [\x7b\n\t\t\t\t\t\"type\": \"TextBlock\",\n\t\t\t\t\t\"text\": \"" ++
    title ++
    "\",\n\t\t\t\t\t\"weight\": \"bolder\",\n\t\t\t\t\t\"size\": \"large\"\n\t\t\t\t\x7d,\x7b\n\t\t\t\t\t\"type\": \"FactSet\",\n\t\t\t\t\t\"facts\": [" ++
    renderFactBody facts ++
    "]\n\t\t\t\t\x7d]\n\t\t\t\x7d\n\t\t\x7d]\n\t\x7d"

theorem formatTeams_eq_adaptiveCard (slug tagName : String) :
    formatTeamsPowerAutomateMessage slug tagName =
      adaptiveCardPayload "New Release Available"
        [("Repository:", slug), ("Version:", tagName)] := by
  apply String.ext
  simp [formatTeamsPowerAutomateMessage, adaptiveCardPayload,
    renderFactBody, renderFact, String.data_append, List.append_assoc]

/-- C7: a destination descriptor starting with the structured-card marker
is given the adaptive-card payload, whose title is "New Release Available"
and whose fact list has exactly two entries, the repository slug under the
"Repository:" title and the tag under the "Version:" title; every other
descriptor is given exactly the plain default message. -/
theorem formatter_dispatch (url slug tagName : String) :
    (hasAutomateMarker url = true →
       formatNotificationMessage url slug tagName
           (defaultMessage slug tagName) =
         adaptiveCardPayload "New Release Available"
           [("Repository:", slug), ("Version:", tagName)]) ∧
    (hasAutomateMarker url = false →
       formatNotificationMessage url slug tagName
           (defaultMessage slug tagName) =
         "New release for " ++ slug ++ ": " ++ tagName) := by
  constructor
  · intro h
    rw [formatNotificationMessage, if_pos h]
    exact formatTeams_eq_adaptiveCard slug tagName
  · intro h
    rw [formatNotificationMessage, if_neg (by simp [h])]
    rfl

/-- Witness for C7 at a structured-card descriptor and a plain one. -/
theorem formatter_dispatch_witness :
    formatNotificationMessage "generic+powerautomate://h" "octo/hello" "v1"
        (defaultMessage "octo/hello" "v1") =
      adaptiveCardPayload "New Release Available"
        [("Repository:", "octo/hello"), ("Version:", "v1")] ∧
    formatNotificationMessage "slack://x" "octo/hello" "v1"
        (defaultMessage "octo/hello" "v1") =
      "New release for " ++ "octo/hello" ++ ": " ++ "v1" :=
  ⟨(formatter_dispatch "generic+powerautomate://h" "octo/hello" "v1").1
      (by decide),
   (formatter_dispatch "slack://x" "octo/hello" "v1").2 (by decide)⟩

/-- C8: one orchestrator cycle checks every entry (each entry's outcome
being exactly that of its own check, unaffected by the others), logs
exactly the failing entries' error lines, and returns success
unconditionally — also when every check failed. -/
theorem orchestrator_checks_all (fetch : FetchOracle)
    (ns : List Notification) (repos : List Repository) :
    (checkRepositories fetch ns repos).result = Except.ok () ∧
    (checkRepositories fetch ns repos).repos =
      repos.map (fun r => (checkRepoEntry fetch ns r).1) ∧
    (checkRepositories fetch ns repos).errlog =
      repos.filterMap (fun r => (checkRepoEntry fetch ns r).2) := by
  induction repos with
  | nil => exact ⟨rfl, rfl, rfl⟩
  | cons r rest ih =>
    refine ⟨?_, ?_, ?_⟩
    · simpa [checkRepositories] using ih.1
    · simpa [checkRepositories] using ih.2.1
    · simp only [checkRepositories, List.filterMap_cons]
      cases hc : (checkRepoEntry fetch ns r).2 with
      | none => simpa [hc] using ih.2.2
      | some e => simpa [hc] using ih.2.2

/-- C10: a successful fetch of the empty tag is handled like any other
tag.  A non-empty stored tag is overwritten with the empty string, the
dispatcher runs once with the empty tag, and every channel is sent the
message formatted for the empty tag — the plain-text channels receiving
exactly the default message with empty version.  An already-empty stored
tag means no state change and no trace at all. -/
theorem empty_tag_like_any_other (repo : Repository) (fetch : FetchOracle)
    (ns : List Notification) (o r : String)
    (hp : parseSlug repo.slug = Except.ok (o, r))
    (hf : fetch o r = Except.ok "") :
    (repo.currentReleaseTag ≠ "" →
       runCheckOnce repo fetch ns =
         (⟨repo.slug, ""⟩, updateReleaseTag repo "" ns) ∧
       dispatchedEvents (updateReleaseTag repo "" ns) = [(repo.slug, "")] ∧
       sentMessages (updateReleaseTag repo "" ns) =
         ns.map (fun n =>
           (n.rawURL,
            formatNotificationMessage n.rawURL repo.slug ""
              (defaultMessage repo.slug ""))) ∧
       (∀ n, n ∈ ns → hasAutomateMarker n.rawURL = false →
          formatNotificationMessage n.rawURL repo.slug ""
              (defaultMessage repo.slug "") =
            "New release for " ++ repo.slug ++ ": ")) ∧
    (repo.currentReleaseTag = "" →
       runCheckOnce repo fetch ns = (repo, [])) := by
  constructor
  · intro h
    have hupd : updateReleaseTag repo "" ns =
        Op.setTag "" :: notifyNewRelease repo.slug "" ns := by
      simp [updateReleaseTag, if_pos h]
    refine ⟨runCheckOnce_ok repo fetch ns "" o r hp hf, ?_, ?_, ?_⟩
    · rw [hupd]
      simpa [dispatchedEvents] using
        dispatchedEvents_notifyNewRelease repo.slug "" ns
    · rw [hupd]
      simpa [sentMessages] using
        sentMessages_notifyNewRelease repo.slug "" ns
    · intro n _ hm
      rw [formatNotificationMessage, if_neg (by simp [hm])]
      show defaultMessage repo.slug "" = _
      simp [defaultMessage]
  · intro h
    have hr := runCheckOnce_ok repo fetch ns "" o r hp hf
    have hnil : updateReleaseTag repo "" ns = [] := by
      simp [updateReleaseTag, h]
    rw [hr, hnil]
    cases repo with
    | mk slug tag =>
      simp only at h
      rw [h]

/-- Witness for C10 at a concrete entry with a non-empty stored tag and a
plain-text channel. -/
theorem empty_tag_like_any_other_witness :
    runCheckOnce ⟨"a/b", "v1"⟩ (fetchConst "") [⟨"slack://x"⟩] =
      (⟨"a/b", ""⟩, updateReleaseTag ⟨"a/b", "v1"⟩ "" [⟨"slack://x"⟩]) ∧
    dispatchedEvents (updateReleaseTag ⟨"a/b", "v1"⟩ "" [⟨"slack://x"⟩]) =
      [("a/b", "")] ∧
    formatNotificationMessage "slack://x" "a/b" "" (defaultMessage "a/b" "") =
      "New release for " ++ "a/b" ++ ": " :=
  ⟨((empty_tag_like_any_other ⟨"a/b", "v1"⟩ (fetchConst "") [⟨"slack://x"⟩]
      "a" "b" rfl rfl).1 (by decide)).1,
   ((empty_tag_like_any_other ⟨"a/b", "v1"⟩ (fetchConst "") [⟨"slack://x"⟩]
      "a" "b" rfl rfl).1 (by decide)).2.1,
   ((empty_tag_like_any_other ⟨"a/b", "v1"⟩ (fetchConst "") [⟨"slack://x"⟩]
      "a" "b" rfl rfl).1 (by decide)).2.2.2 ⟨"slack://x"⟩ (by decide)
      (by decide)⟩

theorem decodeSeq_marshalRepository (l : List Repository) :
    decodeSeq decodeRepository (l.map marshalRepository) = Except.ok l := by
  induction l with
  | nil => rfl
  | cons r rest ih =>
    simp [decodeSeq, marshalRepository, decodeRepository, lookupKey,
      decodeString, ih]

theorem decodeSeq_marshalNotification (l : List Notification) :
    decodeSeq decodeNotification (l.map marshalNotification) =
      Except.ok l := by
  induction l with
  | nil => rfl
  | cons n rest ih =>
    simp [decodeSeq, marshalNotification, decodeNotification, lookupKey,
      decodeString, ih]

theorem unmarshal_marshal (c : Config) :
    unmarshalConfig (marshalConfig c) = Except.ok c := by
  by_cases h : c.accessToken = ""
  · simp [marshalConfig, h, unmarshalConfig, lookupKey, decodeString,
      decodeInt, decodeList, decodeSeq_marshalRepository,
      decodeSeq_marshalNotification]
    cases c with
    | mk tok itv repos nots =>
      simp only at h
      rw [h]
  · simp [marshalConfig, if_neg h, unmarshalConfig, lookupKey,
      decodeString, decodeInt, decodeList, decodeSeq_marshalRepository,
      decodeSeq_marshalNotification]

/-- C9: a document that loads successfully, saved again without changes,
decodes to the very same configuration — every known field (credential,
interval, repository slugs and tags in order, notification destinations in
order) survives the round trip. -/
theorem state_round_trip (doc : YamlValue) (c : Config)
    (h : loadConfig (Except.ok doc) = Except.ok c) :
    loadConfig (Except.ok (saveConfig c)) = loadConfig (Except.ok doc) := by
  rw [h]
  show unmarshalConfig (marshalConfig c) = Except.ok c
  exact unmarshal_marshal c

/-- Witness for C9 at a concrete document holding every known field. -/
theorem state_round_trip_witness :
    loadConfig (Except.ok (saveConfig ⟨"tok", 300, [⟨"a/b", "v1"⟩],
        [⟨"slack://x"⟩]⟩)) =
      loadConfig (Except.ok (YamlValue.map
        [("access_token", YamlValue.str "tok"),
         ("interval", YamlValue.int 300),
         ("repositories", YamlValue.seq
           [YamlValue.map
             [("slug", YamlValue.str "a/b"),
              ("current_release_tag", YamlValue.str "v1")]]),
         ("notifications", YamlValue.seq
           [YamlValue.map [("url", YamlValue.str "slack://x")]])])) :=
  state_round_trip
    (YamlValue.map
      [("access_token", YamlValue.str "tok"),
       ("interval", YamlValue.int 300),
       ("repositories", YamlValue.seq
         [YamlValue.map
           [("slug", YamlValue.str "a/b"),
            ("current_release_tag", YamlValue.str "v1")]]),
       ("notifications", YamlValue.seq
         [YamlValue.map [("url", YamlValue.str "slack://x")]])])
    ⟨"tok", 300, [⟨"a/b", "v1"⟩], [⟨"slack://x"⟩]⟩ rfl

end ReleaseMonitor
